import Mathlib

/-!
Shallow embedding of the TSO dashboard core
(`src/webparts/tso/components/views/DashboardView.tsx` and
`src/webparts/tso/components/common/Table.tsx`).

Modelling conventions, fixed once for the whole file:

* Time is a single integer timeline of milliseconds since the Unix epoch,
  with the local clock equal to UTC (the environment the component runs in
  is modelled with a zero timezone offset, so `setHours(0,0,0,0)` and
  `setUTCHours(0,0,0,0)` agree).  A calendar date (the `YYYY-MM-DD` strings
  stored on records) is a day number `d : Nat` (days since 1970-01-01), and
  `new Date("YYYY-MM-DD")` is the instant `d * msPerDay` (midnight UTC).
* "Now" is split as `todayDay * msPerDay + nowOffset`: `todayDay` is the
  current calendar day, `nowOffset` the milliseconds already elapsed of it.
* A date field that is absent at runtime (`undefined` or `""`) is `none`;
  `new Date(undefined)` is an Invalid Date (NaN), and every `<=`/`>=`
  comparison against NaN is false, which `jsInRange` reproduces.
* JavaScript `Array.prototype.filter`/`reduce`/`forEach` become
  `List.filter`/`List.foldl`; `Array.prototype.sort` with a numeric
  comparator `(a, b) => k a - k b` becomes the stable
  `List.mergeSort (fun a b => decide (k a <= k b))` (JS sort is stable and
  orders ascending by the comparator's sign).
* Amounts are `Int` (the layer does not validate signs, per the source).
-/

namespace TSO

/-- Milliseconds in one civil day. -/
def msPerDay : Nat := 86400000

/-- `FeePayment.status` values. -/
inductive PayStatus where
  | Paid : PayStatus
  | Pending : PayStatus
deriving DecidableEq, Repr

/-- A student record: identifier, optional admission date (day number;
`none` models an absent `admissionDate` field) and enrolled course ids. -/
structure Student where
  id : Nat
  admissionDate : Option Nat
  courseIds : List Nat
deriving DecidableEq, Repr

/-- A staff record with its joining date (`none` models an absent field). -/
structure StaffMember where
  id : Nat
  joiningDate : Option Nat
deriving DecidableEq, Repr

/-- A batch record with its start date (`none` models an absent field). -/
structure Batch where
  id : Nat
  startDate : Option Nat
deriving DecidableEq, Repr

/-- A lead record with its enquiry date (`none` models an absent field). -/
structure Lead where
  id : Nat
  enquiryDate : Option Nat
deriving DecidableEq, Repr

/-- A fee payment: student foreign key, amount, due/transaction date, status. -/
structure FeePayment where
  id : Nat
  studentId : Nat
  amount : Int
  date : Nat
  status : PayStatus
deriving DecidableEq, Repr

/-- An expense record. -/
structure Expense where
  id : Nat
  amount : Int
  date : Nat
deriving DecidableEq, Repr

/-- The collections `DashboardView` receives from its data hook. -/
structure DashboardData where
  students : List Student
  staff : List StaffMember
  batches : List Batch
  leads : List Lead
  feePayments : List FeePayment
  expenses : List Expense
deriving Repr

/-- `new Date("YYYY-MM-DD")` for the day number `d`: midnight UTC, in ms. -/
def dateMs (d : Nat) : Nat := d * msPerDay

/-- `new Date(startDate); start.setUTCHours(0,0,0,0)`: start of the period,
line 41-42 of `DashboardView.tsx`. -/
def periodStart (startDay : Nat) : Nat := startDay * msPerDay

/-- `new Date(endDate); end.setUTCHours(23,59,59,999)`: end of the period,
line 43-44 of `DashboardView.tsx`. -/
def periodEnd (endDay : Nat) : Nat := endDay * msPerDay + (msPerDay - 1)

/-- `new Date(field)` for an optional date field: `none` is an Invalid Date
(NaN); both boundary comparisons against NaN are false. -/
def jsInRange (field : Option Nat) (s e : Nat) : Bool :=
  match field with
  | some d => decide (s ≤ dateMs d) && decide (dateMs d ≤ e)
  | none => false

/-- `students.filter(...)`, lines 47-50: an absent `admissionDate` falls back
to today's date (`s.admissionDate || new Date().toISOString().split("T")[0]`). -/
def newAdmissions (students : List Student) (startDay endDay todayDay : Nat) :
    List Student :=
  students.filter fun s =>
    jsInRange (some (s.admissionDate.getD todayDay)) (periodStart startDay)
      (periodEnd endDay)

/-- `staff.filter(...)`, lines 53-56. -/
def newHires (staff : List StaffMember) (startDay endDay : Nat) :
    List StaffMember :=
  staff.filter fun s =>
    jsInRange s.joiningDate (periodStart startDay) (periodEnd endDay)

/-- The `Set` of course ids accumulated over the admitted students,
lines 59-64 (`activeCourseIds.add(courseId)` inside the two `forEach`es). -/
def activeCourseIds (admitted : List Student) : Finset Nat :=
  admitted.foldl (fun acc st => st.courseIds.foldl (fun a c => insert c a) acc) ∅

/-- `batches.filter(...)`, lines 67-70. -/
def newBatches (batches : List Batch) (startDay endDay : Nat) : List Batch :=
  batches.filter fun b =>
    jsInRange b.startDate (periodStart startDay) (periodEnd endDay)

/-- `leads.filter(...)`, lines 72-75. -/
def newLeads (leads : List Lead) (startDay endDay : Nat) : List Lead :=
  leads.filter fun l =>
    jsInRange l.enquiryDate (periodStart startDay) (periodEnd endDay)

/-- `feePayments.filter(...)`, lines 77-81: status must be `Paid` and the
payment date must fall in the period. -/
def paidPayments (feePayments : List FeePayment) (startDay endDay : Nat) :
    List FeePayment :=
  feePayments.filter fun f =>
    f.status == PayStatus.Paid &&
      jsInRange (some f.date) (periodStart startDay) (periodEnd endDay)

/-- `expenses.filter(...)`, lines 83-86. -/
def allExpenses (expenses : List Expense) (startDay endDay : Nat) :
    List Expense :=
  expenses.filter fun e =>
    jsInRange (some e.date) (periodStart startDay) (periodEnd endDay)

/-- The record returned by the `filteredData` memo, lines 88-98. -/
structure FilteredData where
  newAdmissionsCount : Nat
  newHiresCount : Nat
  activeCoursesCount : Nat
  newBatchesCount : Nat
  newLeadsCount : Nat
  revenue : Int
  expenses : Int
  paidPayments : List FeePayment
  allExpenses : List Expense
deriving DecidableEq, Repr

/-- The `filteredData` memo, lines 40-99, as a function of the two period
boundary days and of today's day (the wall clock read inside the memo). -/
def filteredData (data : DashboardData) (startDay endDay todayDay : Nat) :
    FilteredData :=
  let admitted := newAdmissions data.students startDay endDay todayDay
  { newAdmissionsCount := admitted.length
    newHiresCount := (newHires data.staff startDay endDay).length
    activeCoursesCount := (activeCourseIds admitted).card
    newBatchesCount := (newBatches data.batches startDay endDay).length
    newLeadsCount := (newLeads data.leads startDay endDay).length
    revenue := (paidPayments data.feePayments startDay endDay).foldl
      (fun sum f => sum + f.amount) 0
    expenses := (allExpenses data.expenses startDay endDay).foldl
      (fun sum e => sum + e.amount) 0
    paidPayments := paidPayments data.feePayments startDay endDay
    allExpenses := allExpenses data.expenses startDay endDay }

/-- `feePayments.filter(p => p.status === 'Pending')`, line 134. -/
def pendingPayments (feePayments : List FeePayment) : List FeePayment :=
  feePayments.filter fun p => p.status == PayStatus.Pending

/-- `overduePayments`, lines 136-138: pending payments strictly before the
start of today, sorted ascending by date. -/
def overduePayments (feePayments : List FeePayment) (todayDay nowOffset : Nat) :
    List FeePayment :=
  ((pendingPayments feePayments).filter fun p =>
      decide (dateMs p.date < todayDay * msPerDay)).mergeSort
    fun a b => decide (dateMs a.date ≤ dateMs b.date)

/-- `upcomingPayments`, lines 140-147: pending payments between the start of
today and `thirtyDaysFromNow` = now + 30 days (the `new Date()` whose
day-of-month is set to `todayDate.getDate() + 30` keeps the current
time-of-day `nowOffset`), sorted ascending by date. -/
def upcomingPayments (feePayments : List FeePayment) (todayDay nowOffset : Nat) :
    List FeePayment :=
  ((pendingPayments feePayments).filter fun p =>
      decide (todayDay * msPerDay ≤ dateMs p.date) &&
        decide (dateMs p.date ≤ todayDay * msPerDay + nowOffset + 30 * msPerDay)).mergeSort
    fun a b => decide (dateMs a.date ≤ dateMs b.date)

/-- Gregorian leap-year test. -/
def isLeapYear (y : Nat) : Bool :=
  (y % 4 == 0 && y % 100 != 0) || y % 400 == 0

/-- Days in month `m` (0-based: 0 = January) of year `y`. -/
def daysInMonth (y : Nat) (m : Fin 12) : Nat :=
  match m.val with
  | 1 => if isLeapYear y then 29 else 28
  | 3 => 30
  | 5 => 30
  | 8 => 30
  | 10 => 30
  | _ => 31

theorem daysInMonth_pos (y : Nat) (m : Fin 12) : 0 < daysInMonth y m := by
  unfold daysInMonth
  split <;> first | omega | split <;> omega

/-- Walk the calendar forward from `(y, m)` by `d` days and return the
year/month reached: the arithmetic behind `getUTCFullYear`/`getUTCMonth`. -/
def ymAux (y : Nat) (m : Fin 12) (d : Nat) : Nat × Fin 12 :=
  if d < daysInMonth y m then (y, m)
  else if hm : m.val = 11 then ymAux (y + 1) ⟨0, by omega⟩ (d - daysInMonth y m)
  else ymAux y ⟨m.val + 1, by have := m.isLt; omega⟩ (d - daysInMonth y m)
termination_by d
decreasing_by
  all_goals
    have := daysInMonth_pos y m
    omega

/-- `(date.getUTCFullYear(), date.getUTCMonth())` of the day number `d`
(days since 1970-01-01). -/
def ymOfDay (d : Nat) : Nat × Fin 12 := ymAux 1970 ⟨0, by omega⟩ d

/-- The English short month names `toLocaleString('default', {month:'short'})`
produces, as character lists. -/
def monthShortName (m : Fin 12) : List Char :=
  match m.val with
  | 0 => "Jan".toList
  | 1 => "Feb".toList
  | 2 => "Mar".toList
  | 3 => "Apr".toList
  | 4 => "May".toList
  | 5 => "Jun".toList
  | 6 => "Jul".toList
  | 7 => "Aug".toList
  | 8 => "Sep".toList
  | 9 => "Oct".toList
  | 10 => "Nov".toList
  | _ => "Dec".toList

/-- Decimal digit character for `d < 10`. -/
def digitChar (d : Nat) : Char := Char.ofNat (48 + d)

/-- Decimal rendering of a `Nat` (the `year: 'numeric'` part of the label). -/
def natChars (n : Nat) : List Char :=
  if n = 0 then [Char.ofNat 48] else (Nat.digits 10 n).reverse.map digitChar

/-- The bucket key of line 107:
`new Date(y, m).toLocaleString('default', {month:'short', year:'numeric'})`,
e.g. `"Mar 2024"`.  (Years are ≥ 1970 here, so the `Date(y, m)` constructor's
two-digit-year remapping never fires.) -/
def monthLabel (y : Nat) (m : Fin 12) : List Char :=
  monthShortName m ++ ' ' :: natChars y

/-- The label of the calendar month a record dated `d` falls in. -/
def monthLabelOfDate (d : Nat) : List Char :=
  monthLabel (ymOfDay d).1 (ymOfDay d).2

/-- Reverse lookup of a short month name. -/
def monthIndexOfName (cs : List Char) : Option (Fin 12) :=
  (List.finRange 12).find? fun m => monthShortName m == cs

/-- Total decimal reader (what `Date.parse` does with the year token of a
well-formed label). -/
def readNatChars (cs : List Char) : Nat :=
  cs.foldl (fun acc c => acc * 10 + (c.toNat - 48)) 0

/-- `new Date(label)` for the labels the chart produces (`"Mar 2024"` parses
as March 2024): the month token is the first three characters, the year
token follows the space.  `none` is the NaN result for an unrecognised
month token (unreachable for labels built by `monthLabel`). -/
def jsParseMonthLabel (cs : List Char) : Option (Nat × Fin 12) :=
  match monthIndexOfName (cs.take 3) with
  | some m => some (readNatChars (cs.drop 4), m)
  | none => none

/-- The sort key of line 121's comparator
`new Date(a.name) - new Date(b.name)`: a strictly increasing encoding
(`year * 12 + month`) of the parsed label's timestamp.  An unparsable label
(never produced) maps to 0. -/
def labelDateCode (cs : List Char) : Nat :=
  match jsParseMonthLabel cs with
  | some (y, m) => y * 12 + m.val
  | none => 0

/-- One entry of `chartData`: `{name, Revenue, Expenses}` (lines 118-121). -/
structure MonthlyBucket where
  name : List Char
  Revenue : Int
  Expenses : Int
deriving DecidableEq, Repr

/-- Lines 108-111: `if (!monthlyData[month]) monthlyData[month] = {0,0};
monthlyData[month][type] += item.amount`, on an insertion-ordered record.
Creating the zero bucket and immediately bumping one field is fused. -/
def addToMonth (acc : List MonthlyBucket) (key : List Char) (isRevenue : Bool)
    (amt : Int) : List MonthlyBucket :=
  match acc with
  | [] =>
    [{ name := key, Revenue := if isRevenue then amt else 0,
       Expenses := if isRevenue then 0 else amt }]
  | b :: rest =>
    if b.name == key then
      (if isRevenue then { b with Revenue := b.Revenue + amt }
       else { b with Expenses := b.Expenses + amt }) :: rest
    else b :: addToMonth rest key isRevenue amt

/-- `processItems(items, type)`, lines 104-113, over `(date, amount)` pairs. -/
def processItems (items : List (Nat × Int)) (isRevenue : Bool)
    (acc : List MonthlyBucket) : List MonthlyBucket :=
  items.foldl (fun a it => addToMonth a (monthLabelOfDate it.1) isRevenue it.2) acc

/-- `processMonthlyData(payments, expensesList)`, lines 102-124: accumulate
revenue then expenses into monthly buckets, then sort by the re-parsed
label date. -/
def processMonthlyData (payments : List FeePayment) (expensesList : List Expense) :
    List MonthlyBucket :=
  let afterRevenue := processItems (payments.map fun p => (p.date, p.amount)) true []
  let afterBoth :=
    processItems (expensesList.map fun e => (e.date, e.amount)) false afterRevenue
  afterBoth.mergeSort fun a b => decide (labelDateCode a.name ≤ labelDateCode b.name)

/-- The whole view-model the component computes: the filtered metrics, the
chart series and the two risk lists (lines 40-147). -/
structure DashboardOutput where
  filtered : FilteredData
  chartData : List MonthlyBucket
  overdue : List FeePayment
  upcoming : List FeePayment
deriving Repr

/-- `DashboardView`'s derived data for one render: period boundary days
`startDay`/`endDay` and the current instant `todayDay * msPerDay + nowOffset`. -/
def dashboardView (data : DashboardData) (startDay endDay todayDay nowOffset : Nat) :
    DashboardOutput :=
  let fd := filteredData data startDay endDay todayDay
  { filtered := fd
    chartData := processMonthlyData fd.paidPayments fd.allExpenses
    overdue := overduePayments data.feePayments todayDay nowOffset
    upcoming := upcomingPayments data.feePayments todayDay nowOffset }

/-- `SortConfig` of `Table.tsx`, lines 4-7. -/
inductive SortDirection where
  | ascending : SortDirection
  | descending : SortDirection
deriving DecidableEq, Repr

/-- The sort state a table carries (`sortConfig` prop, `null` = `none`). -/
structure SortConfig where
  key : String
  direction : SortDirection
deriving DecidableEq, Repr

/-- `TableHeader` of `Table.tsx`, lines 9-13 (`sortable?: boolean`; an
absent flag behaves as `false`). -/
structure TableHeader where
  key : String
  label : String
  sortable : Bool
deriving DecidableEq, Repr

/-- The `onClick` handler of one header cell, line 75:
`() => header.sortable && requestSort(header.key)`.  `some k` means
`requestSort` fires with key `k`; `none` means it does not fire. -/
def headerClickEvent (h : TableHeader) : Option String :=
  if h.sortable then some h.key else none

/-- The per-header click effects of one render of `Table` (lines 69-80);
`sortConfig` is in scope in the component but the handler ignores it. -/
def tableHeaderHandlers (headers : List TableHeader)
    (sortConfig : Option SortConfig) : List (Option String) :=
  headers.map headerClickEvent

/-- The spec's reading of `activeCoursesCount`'s set: the union of the
course-identifier sets of the admitted students (§4.3 of the spec; stated
from the spec's words, to be compared with `activeCourseIds`). -/
def unionCourseIds (admitted : List Student) : Finset Nat :=
  admitted.foldr (fun st acc => st.courseIds.toFinset ∪ acc) ∅

/-- The calendar months (year, 0-based month) of the inputs to
`processMonthlyData`, payments first, in input order. -/
def monthsOf (payments : List FeePayment) (expensesList : List Expense) :
    List (Nat × Fin 12) :=
  payments.map (fun p => ymOfDay p.date) ++ expensesList.map (fun e => ymOfDay e.date)

/-! ## Helper lemmas -/

theorem jsInRange_some_iff (d s e : Nat) :
    jsInRange (some d) (periodStart s) (periodEnd e) = true ↔ s ≤ d ∧ d ≤ e := by
  simp only [jsInRange, periodStart, periodEnd, dateMs, msPerDay, Bool.and_eq_true,
    decide_eq_true_eq]
  omega

theorem jsInRange_degenerate (x : Option Nat) (s e : Nat) (h : e < s) :
    jsInRange x (periodStart s) (periodEnd e) = false := by
  cases x with
  | none => rfl
  | some d =>
    simp only [jsInRange, periodStart, periodEnd, dateMs, msPerDay, Bool.and_eq_false_iff,
      decide_eq_false_iff_not]
    omega

theorem mem_overduePayments_iff (fps : List FeePayment) (todayDay nowOffset : Nat)
    (p : FeePayment) :
    p ∈ overduePayments fps todayDay nowOffset ↔
      p ∈ fps ∧ p.status = PayStatus.Pending ∧ p.date < todayDay := by
  simp only [overduePayments, List.mem_mergeSort, List.mem_filter, pendingPayments,
    beq_iff_eq, decide_eq_true_eq, dateMs, msPerDay, and_assoc]
  constructor
  · rintro ⟨h1, h2, h3⟩; exact ⟨h1, h2, by omega⟩
  · rintro ⟨h1, h2, h3⟩; exact ⟨h1, h2, by omega⟩

theorem mem_upcomingPayments_iff (fps : List FeePayment) (todayDay nowOffset : Nat)
    (p : FeePayment) (hT : nowOffset < msPerDay) :
    p ∈ upcomingPayments fps todayDay nowOffset ↔
      p ∈ fps ∧ p.status = PayStatus.Pending ∧ todayDay ≤ p.date ∧
        p.date ≤ todayDay + 30 := by
  rw [msPerDay] at hT
  simp only [upcomingPayments, List.mem_mergeSort, List.mem_filter, pendingPayments,
    beq_iff_eq, Bool.and_eq_true, decide_eq_true_eq, dateMs, msPerDay, and_assoc]
  constructor
  · rintro ⟨h1, h2, h3, h4⟩; exact ⟨h1, h2, by omega, by omega⟩
  · rintro ⟨h1, h2, h3, h4⟩; exact ⟨h1, h2, by omega, by omega⟩

/-! ## The claims -/

/-- C5: the pending-payment classification is independent of the
caller-selected period: for any two periods over the same data and the same
current instant, the overdue and upcoming lists coincide (the classifier
reads the full `feePayments` collection, never the filtered one). -/
theorem classification_period_independent (data : DashboardData)
    (s1 e1 s2 e2 todayDay nowOffset : Nat) :
    (dashboardView data s1 e1 todayDay nowOffset).overdue =
        (dashboardView data s2 e2 todayDay nowOffset).overdue ∧
      (dashboardView data s1 e1 todayDay nowOffset).upcoming =
        (dashboardView data s2 e2 todayDay nowOffset).upcoming :=
  ⟨rfl, rfl⟩

/-- C9: a header not marked sortable never fires `requestSort`: its click
handler emits no sort-activation event, whatever the headers list and the
current sort state. -/
theorem nonsortable_header_no_sort_event (headers : List TableHeader)
    (sortConfig : Option SortConfig) (i : Nat) (hi : i < headers.length)
    (hj : i < (tableHeaderHandlers headers sortConfig).length)
    (hns : headers[i].sortable = false) :
    (tableHeaderHandlers headers sortConfig)[i] = none := by
  simp [tableHeaderHandlers, List.getElem_map, headerClickEvent, hns]

/-- Witness for C9 at a concrete header list. -/
theorem nonsortable_header_no_sort_event_witness :
    (tableHeaderHandlers
        [{ key := "actions", label := "Actions", sortable := false }] none).get
      ⟨0, by decide⟩ = none :=
  nonsortable_header_no_sort_event
    [{ key := "actions", label := "Actions", sortable := false }] none 0
    (by decide) (by decide) (by decide)

/-- C10: the today-fallback is special to students: a staff member, batch or
lead with an absent date field is excluded from the corresponding filter for
every period (its date parses to an Invalid Date that fails both boundary
comparisons). -/
theorem absent_date_excluded_for_every_period (staff : List StaffMember)
    (batches : List Batch) (leads : List Lead) (startDay endDay : Nat)
    (st : StaffMember) (b : Batch) (ld : Lead) (h1 : st.joiningDate = none)
    (h2 : b.startDate = none) (h3 : ld.enquiryDate = none) :
    st ∉ newHires staff startDay endDay ∧
      b ∉ newBatches batches startDay endDay ∧
        ld ∉ newLeads leads startDay endDay := by
  refine ⟨fun hmem => ?_, fun hmem => ?_, fun hmem => ?_⟩
  · rw [newHires, List.mem_filter, h1] at hmem
    exact absurd hmem.2 (by simp [jsInRange])
  · rw [newBatches, List.mem_filter, h2] at hmem
    exact absurd hmem.2 (by simp [jsInRange])
  · rw [newLeads, List.mem_filter, h3] at hmem
    exact absurd hmem.2 (by simp [jsInRange])

/-- Witness for C10 at concrete records. -/
theorem absent_date_excluded_for_every_period_witness :
    ⟨7, none⟩ ∉ newHires [⟨7, none⟩, ⟨8, some 10⟩] 5 20 ∧
      ⟨3, none⟩ ∉ newBatches [⟨3, none⟩] 5 20 ∧
        ⟨4, none⟩ ∉ newLeads [⟨4, none⟩] 5 20 :=
  absent_date_excluded_for_every_period [⟨7, none⟩, ⟨8, some 10⟩] [⟨3, none⟩]
    [⟨4, none⟩] 5 20 ⟨7, none⟩ ⟨3, none⟩ ⟨4, none⟩ rfl rfl rfl

/-- C6: a student with an absent admission date is treated as admitted
today, so it passes the admission filter exactly when today lies inside the
period. -/
theorem absent_admission_counts_iff_today_in_period (students : List Student)
    (startDay endDay todayDay : Nat) (s : Student) (hs : s.admissionDate = none) :
    s ∈ newAdmissions students startDay endDay todayDay ↔
      s ∈ students ∧ startDay ≤ todayDay ∧ todayDay ≤ endDay := by
  rw [newAdmissions, List.mem_filter, hs, Option.getD_none, jsInRange_some_iff]

/-- Witness for C6: a student with no admission date counts for a period
containing today and not for one that misses it. -/
theorem absent_admission_counts_iff_today_in_period_witness :
    (⟨2, none, [4]⟩ ∈ newAdmissions [⟨2, none, [4]⟩] 100 200 150 ↔
        (⟨2, none, [4]⟩ : Student) ∈ [(⟨2, none, [4]⟩ : Student)] ∧
          100 ≤ 150 ∧ 150 ≤ 200) ∧
      (⟨2, none, [4]⟩ ∈ newAdmissions [⟨2, none, [4]⟩] 100 200 300 ↔
        (⟨2, none, [4]⟩ : Student) ∈ [(⟨2, none, [4]⟩ : Student)] ∧
          100 ≤ 300 ∧ 300 ≤ 200) :=
  ⟨absent_admission_counts_iff_today_in_period [⟨2, none, [4]⟩] 100 200 150
      ⟨2, none, [4]⟩ rfl,
    absent_admission_counts_iff_today_in_period [⟨2, none, [4]⟩] 100 200 300
      ⟨2, none, [4]⟩ rfl⟩

/-- C7: a degenerate period (start after end) raises no error and yields
empty-period results: every entity filter is empty and the metrics snapshot
is all zeros with empty payment/expense lists. -/
theorem degenerate_period_all_empty (data : DashboardData)
    (startDay endDay todayDay : Nat) (h : endDay < startDay) :
    newAdmissions data.students startDay endDay todayDay = [] ∧
      newHires data.staff startDay endDay = [] ∧
      newBatches data.batches startDay endDay = [] ∧
      newLeads data.leads startDay endDay = [] ∧
      paidPayments data.feePayments startDay endDay = [] ∧
      allExpenses data.expenses startDay endDay = [] ∧
      filteredData data startDay endDay todayDay =
        { newAdmissionsCount := 0, newHiresCount := 0, activeCoursesCount := 0,
          newBatchesCount := 0, newLeadsCount := 0, revenue := 0, expenses := 0,
          paidPayments := [], allExpenses := [] } := by
  have hA : newAdmissions data.students startDay endDay todayDay = [] := by
    rw [newAdmissions, List.filter_eq_nil_iff]
    intro s _
    simp [jsInRange_degenerate _ _ _ h]
  have hH : newHires data.staff startDay endDay = [] := by
    rw [newHires, List.filter_eq_nil_iff]
    intro s _
    simp [jsInRange_degenerate _ _ _ h]
  have hB : newBatches data.batches startDay endDay = [] := by
    rw [newBatches, List.filter_eq_nil_iff]
    intro b _
    simp [jsInRange_degenerate _ _ _ h]
  have hL : newLeads data.leads startDay endDay = [] := by
    rw [newLeads, List.filter_eq_nil_iff]
    intro l _
    simp [jsInRange_degenerate _ _ _ h]
  have hP : paidPayments data.feePayments startDay endDay = [] := by
    rw [paidPayments, List.filter_eq_nil_iff]
    intro f _
    simp [jsInRange_degenerate _ _ _ h]
  have hE : allExpenses data.expenses startDay endDay = [] := by
    rw [allExpenses, List.filter_eq_nil_iff]
    intro e _
    simp [jsInRange_degenerate _ _ _ h]
  refine ⟨hA, hH, hB, hL, hP, hE, ?_⟩
  rw [filteredData]
  simp only [hA, hH, hB, hL, hP, hE]
  rfl

/-- Witness for C7: a period with start day 10 and end day 3 over nonempty
collections yields the all-zero snapshot. -/
theorem degenerate_period_all_empty_witness :
    newAdmissions [⟨1, some 5, [1]⟩, ⟨2, none, [2]⟩] 10 3 9 = [] ∧
      newHires [⟨1, some 6⟩] 10 3 = [] ∧
      newBatches [⟨1, some 7⟩] 10 3 = [] ∧
      newLeads [⟨1, some 8⟩] 10 3 = [] ∧
      paidPayments [⟨1, 1, 100, 9, PayStatus.Paid⟩] 10 3 = [] ∧
      allExpenses [⟨1, 30, 9⟩] 10 3 = [] ∧
      filteredData
          ⟨[⟨1, some 5, [1]⟩, ⟨2, none, [2]⟩], [⟨1, some 6⟩], [⟨1, some 7⟩],
            [⟨1, some 8⟩], [⟨1, 1, 100, 9, PayStatus.Paid⟩], [⟨1, 30, 9⟩]⟩ 10 3 9 =
        { newAdmissionsCount := 0, newHiresCount := 0, activeCoursesCount := 0,
          newBatchesCount := 0, newLeadsCount := 0, revenue := 0, expenses := 0,
          paidPayments := [], allExpenses := [] } :=
  degenerate_period_all_empty
    ⟨[⟨1, some 5, [1]⟩, ⟨2, none, [2]⟩], [⟨1, some 6⟩], [⟨1, some 7⟩],
      [⟨1, some 8⟩], [⟨1, 1, 100, 9, PayStatus.Paid⟩], [⟨1, 30, 9⟩]⟩ 10 3 9
    (by decide)

/-- C3: no payment is in both the overdue and the upcoming list, for every
payment collection and every current instant. -/
theorem overdue_upcoming_disjoint (fps : List FeePayment)
    (todayDay nowOffset : Nat) :
    (overduePayments fps todayDay nowOffset).all
      (fun p => !((upcomingPayments fps todayDay nowOffset).contains p)) = true := by
  rw [List.all_eq_true]
  intro p hp
  suffices hn : p ∉ upcomingPayments fps todayDay nowOffset by simpa using hn
  intro hu
  rw [overduePayments, List.mem_mergeSort, List.mem_filter] at hp
  rw [upcomingPayments, List.mem_mergeSort, List.mem_filter] at hu
  have h1 := hp.2
  have h2 := hu.2
  simp only [Bool.and_eq_true, decide_eq_true_eq, dateMs, msPerDay] at h1 h2
  omega

/-- C4: both risk lists contain only `Pending` payments and are sorted
ascending by due date. -/
theorem risk_lists_pending_sorted (fps : List FeePayment)
    (todayDay nowOffset : Nat) :
    (overduePayments fps todayDay nowOffset).all
        (fun p => p.status == PayStatus.Pending) = true ∧
      (upcomingPayments fps todayDay nowOffset).all
        (fun p => p.status == PayStatus.Pending) = true ∧
      (overduePayments fps todayDay nowOffset).Pairwise
        (fun a b => a.date ≤ b.date) ∧
      (upcomingPayments fps todayDay nowOffset).Pairwise
        (fun a b => a.date ≤ b.date) := by
  have htrans : ∀ a b c : FeePayment,
      decide (dateMs a.date ≤ dateMs b.date) = true →
        decide (dateMs b.date ≤ dateMs c.date) = true →
          decide (dateMs a.date ≤ dateMs c.date) = true := by
    intro a b c h1 h2
    simp only [decide_eq_true_eq] at h1 h2 ⊢
    omega
  have htotal : ∀ a b : FeePayment,
      (decide (dateMs a.date ≤ dateMs b.date) ||
        decide (dateMs b.date ≤ dateMs a.date)) = true := by
    intro a b
    simp only [Bool.or_eq_true, decide_eq_true_eq]
    omega
  have himp : ∀ {a b : FeePayment},
      decide (dateMs a.date ≤ dateMs b.date) = true → a.date ≤ b.date := by
    intro a b hab
    simp only [decide_eq_true_eq, dateMs, msPerDay] at hab
    omega
  refine ⟨?_, ?_, ?_, ?_⟩
  · rw [List.all_eq_true]
    intro p hp
    rw [overduePayments, List.mem_mergeSort, List.mem_filter, pendingPayments,
      List.mem_filter] at hp
    exact hp.1.2
  · rw [List.all_eq_true]
    intro p hp
    rw [upcomingPayments, List.mem_mergeSort, List.mem_filter, pendingPayments,
      List.mem_filter] at hp
    exact hp.1.2
  · rw [overduePayments]
    exact (List.sorted_mergeSort htrans htotal _).imp himp
  · rw [upcomingPayments]
    exact (List.sorted_mergeSort htrans htotal _).imp himp

/-- C2: boundary behaviour of the classifier for a pending payment: due
today → upcoming and not overdue; due exactly 30 days out → upcoming; due 31
or more days out → in neither list; due strictly before today → overdue. -/
theorem pending_boundary_classification (fps : List FeePayment)
    (todayDay nowOffset : Nat) (p : FeePayment) (hT : nowOffset < msPerDay)
    (hmem : p ∈ fps) (hstat : p.status = PayStatus.Pending) :
    (p.date = todayDay →
        p ∈ upcomingPayments fps todayDay nowOffset ∧
          p ∉ overduePayments fps todayDay nowOffset) ∧
      (p.date = todayDay + 30 → p ∈ upcomingPayments fps todayDay nowOffset) ∧
      (todayDay + 31 ≤ p.date →
        p ∉ upcomingPayments fps todayDay nowOffset ∧
          p ∉ overduePayments fps todayDay nowOffset) ∧
      (p.date < todayDay → p ∈ overduePayments fps todayDay nowOffset) := by
  refine ⟨fun h => ⟨?_, ?_⟩, fun h => ?_, fun h => ⟨?_, ?_⟩, fun h => ?_⟩
  · rw [mem_upcomingPayments_iff _ _ _ _ hT]
    exact ⟨hmem, hstat, by omega, by omega⟩
  · simp only [mem_overduePayments_iff]
    rintro ⟨-, -, hlt⟩
    omega
  · rw [mem_upcomingPayments_iff _ _ _ _ hT]
    exact ⟨hmem, hstat, by omega, by omega⟩
  · simp only [mem_upcomingPayments_iff _ _ _ _ hT]
    rintro ⟨-, -, -, hle⟩
    omega
  · simp only [mem_overduePayments_iff]
    rintro ⟨-, -, hlt⟩
    omega
  · rw [mem_overduePayments_iff]
    exact ⟨hmem, hstat, by omega⟩

/-- Witness for C2: today is day 100 at midnight; payments due on days 100,
130, 131 and 99 land in upcoming, upcoming, neither and overdue. -/
theorem pending_boundary_classification_witness :
    (⟨1, 1, 10, 100, PayStatus.Pending⟩ : FeePayment) ∈
        upcomingPayments
          [⟨1, 1, 10, 100, PayStatus.Pending⟩, ⟨2, 1, 10, 130, PayStatus.Pending⟩,
            ⟨3, 1, 10, 131, PayStatus.Pending⟩, ⟨4, 1, 10, 99, PayStatus.Pending⟩]
          100 0 ∧
      (⟨2, 1, 10, 130, PayStatus.Pending⟩ : FeePayment) ∈
        upcomingPayments
          [⟨1, 1, 10, 100, PayStatus.Pending⟩, ⟨2, 1, 10, 130, PayStatus.Pending⟩,
            ⟨3, 1, 10, 131, PayStatus.Pending⟩, ⟨4, 1, 10, 99, PayStatus.Pending⟩]
          100 0 ∧
      (⟨3, 1, 10, 131, PayStatus.Pending⟩ : FeePayment) ∉
        upcomingPayments
          [⟨1, 1, 10, 100, PayStatus.Pending⟩, ⟨2, 1, 10, 130, PayStatus.Pending⟩,
            ⟨3, 1, 10, 131, PayStatus.Pending⟩, ⟨4, 1, 10, 99, PayStatus.Pending⟩]
          100 0 ∧
      (⟨4, 1, 10, 99, PayStatus.Pending⟩ : FeePayment) ∈
        overduePayments
          [⟨1, 1, 10, 100, PayStatus.Pending⟩, ⟨2, 1, 10, 130, PayStatus.Pending⟩,
            ⟨3, 1, 10, 131, PayStatus.Pending⟩, ⟨4, 1, 10, 99, PayStatus.Pending⟩]
          100 0 :=
  ⟨((pending_boundary_classification _ 100 0 _ (by decide) (by decide) rfl).1
      rfl).1,
    (pending_boundary_classification _ 100 0 _ (by decide) (by decide)
        rfl).2.1 rfl,
    ((pending_boundary_classification _ 100 0 _ (by decide) (by decide)
        rfl).2.2.1 (by decide)).1,
    (pending_boundary_classification _ 100 0 _ (by decide) (by decide)
        rfl).2.2.2 (by decide)⟩

theorem mem_foldl_insert (cs : List Nat) (acc : Finset Nat) (x : Nat) :
    x ∈ cs.foldl (fun a c => insert c a) acc ↔ x ∈ acc ∨ x ∈ cs := by
  induction cs generalizing acc with
  | nil => simp
  | cons c rest ih =>
    simp only [List.foldl_cons, ih, Finset.mem_insert, List.mem_cons]
    tauto

theorem mem_activeCourseIds (admitted : List Student) (x : Nat) :
    x ∈ activeCourseIds admitted ↔ ∃ st ∈ admitted, x ∈ st.courseIds := by
  rw [activeCourseIds]
  have h : ∀ acc : Finset Nat,
      x ∈ admitted.foldl
          (fun acc st => st.courseIds.foldl (fun a c => insert c a) acc) acc ↔
        x ∈ acc ∨ ∃ st ∈ admitted, x ∈ st.courseIds := by
    induction admitted with
    | nil => simp
    | cons st rest ih =>
      intro acc
      simp only [List.foldl_cons, ih, mem_foldl_insert, List.mem_cons]
      constructor
      · rintro (⟨hx | hx⟩ | ⟨s, hs, hx⟩)
        · exact Or.inl hx
        · exact Or.inr ⟨st, Or.inl rfl, hx⟩
        · exact Or.inr ⟨s, Or.inr hs, hx⟩
      · rintro (hx | ⟨s, hs | hs, hx⟩)
        · exact Or.inl (Or.inl hx)
        · exact Or.inl (Or.inr (hs ▸ hx))
        · exact Or.inr ⟨s, hs, hx⟩
  simpa using h ∅

theorem mem_unionCourseIds (admitted : List Student) (x : Nat) :
    x ∈ unionCourseIds admitted ↔ ∃ st ∈ admitted, x ∈ st.courseIds := by
  induction admitted with
  | nil => simp [unionCourseIds]
  | cons st rest ih =>
    simp only [unionCourseIds, List.foldr_cons, Finset.mem_union,
      List.mem_toFinset, List.mem_cons] at ih ⊢
    constructor
    · rintro (hx | hx)
      · exact ⟨st, Or.inl rfl, hx⟩
      · obtain ⟨s, hs, hx⟩ := ih.mp hx
        exact ⟨s, Or.inr hs, hx⟩
    · rintro ⟨s, hs | hs, hx⟩
      · exact Or.inl (hs ▸ hx)
      · exact Or.inr (ih.mpr ⟨s, hs, hx⟩)

/-- C8: `activeCoursesCount` is the cardinality of the union of the
course-identifier sets of the admitted students — a course referenced by
several admitted students counts once. -/
theorem active_courses_count_is_union_card (data : DashboardData)
    (startDay endDay todayDay : Nat) :
    (filteredData data startDay endDay todayDay).activeCoursesCount =
      (unionCourseIds
        (newAdmissions data.students startDay endDay todayDay)).card := by
  have hset :
      activeCourseIds (newAdmissions data.students startDay endDay todayDay) =
        unionCourseIds (newAdmissions data.students startDay endDay todayDay) := by
    ext x
    rw [mem_activeCourseIds, mem_unionCourseIds]
  show (activeCourseIds
    (newAdmissions data.students startDay endDay todayDay)).card = _
  rw [hset]

theorem length_monthShortName : ∀ m : Fin 12, (monthShortName m).length = 3 := by
  decide

theorem monthIndexOfName_monthShortName :
    ∀ m : Fin 12, monthIndexOfName (monthShortName m) = some m := by
  decide

theorem digit_foldl_step (l : List Nat) (h : ∀ d ∈ l, d < 10) (acc : Nat) :
    (l.reverse.map digitChar).foldl (fun a c => a * 10 + (c.toNat - 48)) acc =
      acc * 10 ^ l.length + Nat.ofDigits 10 l := by
  induction l generalizing acc with
  | nil => simp [Nat.ofDigits_nil]
  | cons d ds ih =>
    have hd : d < 10 := h d (List.mem_cons_self _ _)
    have hds : ∀ x ∈ ds, x < 10 := fun x hx => h x (List.mem_cons_of_mem _ hx)
    have hchar : (digitChar d).toNat - 48 = d := by
      interval_cases d <;> decide
    rw [List.reverse_cons, List.map_append, List.foldl_append]
    simp only [List.map_cons, List.map_nil, List.foldl_cons, List.foldl_nil]
    rw [ih hds, hchar, Nat.ofDigits_cons, List.length_cons]
    ring

theorem readNatChars_natChars (n : Nat) : readNatChars (natChars n) = n := by
  rw [natChars]
  split
  · rename_i h
    subst h
    decide
  · rw [readNatChars,
      digit_foldl_step _ (fun d hd => Nat.digits_lt_base (by norm_num) hd) 0]
    simp [Nat.ofDigits_digits]

theorem take3_monthLabel (y : Nat) (m : Fin 12) :
    (monthLabel y m).take 3 = monthShortName m :=
  List.take_left' (length_monthShortName m)

theorem drop4_monthLabel (y : Nat) (m : Fin 12) :
    (monthLabel y m).drop 4 = natChars y := by
  rw [monthLabel]
  have h4 : (monthShortName m ++ ' ' :: natChars y).drop 4 =
      ((monthShortName m ++ ' ' :: natChars y).drop 3).drop 1 := by
    rw [List.drop_drop]
  rw [h4, List.drop_left' (length_monthShortName m)]
  rfl

theorem jsParseMonthLabel_monthLabel (y : Nat) (m : Fin 12) :
    jsParseMonthLabel (monthLabel y m) = some (y, m) := by
  simp [jsParseMonthLabel, take3_monthLabel, monthIndexOfName_monthShortName,
    drop4_monthLabel, readNatChars_natChars]

theorem labelDateCode_monthLabel (y : Nat) (m : Fin 12) :
    labelDateCode (monthLabel y m) = y * 12 + m.val := by
  simp [labelDateCode, jsParseMonthLabel_monthLabel]

theorem monthLabel_inj {y1 y2 : Nat} {m1 m2 : Fin 12}
    (h : monthLabel y1 m1 = monthLabel y2 m2) : y1 = y2 ∧ m1 = m2 := by
  have h1 := jsParseMonthLabel_monthLabel y1 m1
  rw [h, jsParseMonthLabel_monthLabel] at h1
  simp only [Option.some.injEq, Prod.mk.injEq] at h1
  exact ⟨h1.1.symm, h1.2.symm⟩

theorem map_name_addToMonth (acc : List MonthlyBucket) (key : List Char)
    (ty : Bool) (amt : Int) :
    (addToMonth acc key ty amt).map (·.name) =
      if key ∈ acc.map (·.name) then acc.map (·.name)
      else acc.map (·.name) ++ [key] := by
  induction acc with
  | nil => simp [addToMonth]
  | cons b rest ih =>
    by_cases hb : b.name = key
    · rw [addToMonth]
      simp only [beq_iff_eq, hb, if_pos rfl]
      cases ty <;> simp [hb]
    · rw [addToMonth]
      have hbeq : (b.name == key) = false := by simpa using hb
      rw [hbeq]
      simp only [Bool.false_eq_true, if_false, List.map_cons, ih, List.mem_cons]
      by_cases hk : key ∈ rest.map (·.name)
      · rw [if_pos hk, if_pos (Or.inr hk)]
      · rw [if_neg hk, if_neg (by rintro (h | h) <;> [exact hb h.symm; exact hk h])]
        simp

theorem toFinset_map_name_addToMonth (acc : List MonthlyBucket) (key : List Char)
    (ty : Bool) (amt : Int) :
    ((addToMonth acc key ty amt).map (·.name)).toFinset =
      insert key ((acc.map (·.name)).toFinset) := by
  rw [map_name_addToMonth]
  split
  · rename_i h
    rw [Finset.insert_eq_self.mpr (List.mem_toFinset.mpr h)]
  · ext x
    simp only [List.toFinset_append, Finset.mem_union, List.mem_toFinset,
      List.mem_singleton, Finset.mem_insert]
    tauto

theorem nodup_map_name_addToMonth (acc : List MonthlyBucket) (key : List Char)
    (ty : Bool) (amt : Int) (h : (acc.map (·.name)).Nodup) :
    ((addToMonth acc key ty amt).map (·.name)).Nodup := by
  rw [map_name_addToMonth]
  split
  · exact h
  · rename_i hk
    simp [List.nodup_append, h, hk]

theorem toFinset_map_name_processItems (items : List (Nat × Int)) (ty : Bool)
    (acc : List MonthlyBucket) :
    ((processItems items ty acc).map (·.name)).toFinset =
      (acc.map (·.name)).toFinset ∪
        (items.map (fun it => monthLabelOfDate it.1)).toFinset := by
  induction items generalizing acc with
  | nil => simp [processItems]
  | cons it rest ih =>
    simp only [processItems, List.foldl_cons] at ih ⊢
    rw [ih, toFinset_map_name_addToMonth]
    ext x
    simp only [Finset.mem_union, Finset.mem_insert, List.mem_toFinset,
      List.map_cons, List.mem_cons]
    tauto

theorem nodup_map_name_processItems (items : List (Nat × Int)) (ty : Bool)
    (acc : List MonthlyBucket) (h : (acc.map (·.name)).Nodup) :
    ((processItems items ty acc).map (·.name)).Nodup := by
  induction items generalizing acc with
  | nil => exact h
  | cons it rest ih =>
    simp only [processItems, List.foldl_cons] at ih ⊢
    exact ih _ (nodup_map_name_addToMonth _ _ _ _ h)

theorem monthLabelPair_injective :
    Function.Injective (fun p : Nat × Fin 12 => monthLabel p.1 p.2) := by
  rintro ⟨y1, m1⟩ ⟨y2, m2⟩ h
  obtain ⟨h1, h2⟩ := monthLabel_inj h
  simp only [Prod.mk.injEq]
  exact ⟨h1, h2⟩

/-- C1: for inputs spanning N distinct calendar months, `processMonthlyData`
returns exactly N buckets; the buckets are ordered by the chronological code
of their re-parsed labels (`labelDateCode`, the year/month pair — see
`labelDateCode_monthLabel`), and every bucket is labelled with the label of
one of the input months.  All of this holds for every input order, since the
inputs are universally quantified. -/
theorem monthly_series_buckets_chronological (payments : List FeePayment)
    (expensesList : List Expense) :
    (processMonthlyData payments expensesList).length =
        (monthsOf payments expensesList).toFinset.card ∧
      ((processMonthlyData payments expensesList).map (·.name)).Pairwise
        (fun a b => labelDateCode a ≤ labelDateCode b) ∧
      ∀ b ∈ processMonthlyData payments expensesList,
        ∃ p ∈ monthsOf payments expensesList, b.name = monthLabel p.1 p.2 := by
  have hunfold : processMonthlyData payments expensesList =
      (processItems (expensesList.map fun e => (e.date, e.amount)) false
          (processItems (payments.map fun p => (p.date, p.amount)) true
            [])).mergeSort
        (fun a b => decide (labelDateCode a.name ≤ labelDateCode b.name)) := rfl
  set after := processItems (expensesList.map fun e => (e.date, e.amount)) false
    (processItems (payments.map fun p => (p.date, p.amount)) true []) with hafter
  have hset : (after.map (·.name)).toFinset =
      ((monthsOf payments expensesList).map
        (fun p => monthLabel p.1 p.2)).toFinset := by
    rw [hafter, toFinset_map_name_processItems, toFinset_map_name_processItems]
    ext x
    simp only [List.map_nil, List.toFinset_nil, Finset.empty_union,
      Finset.mem_union, List.mem_toFinset, List.mem_map, List.map_map,
      monthsOf, List.mem_append, Function.comp, monthLabelOfDate]
    constructor
    · rintro (⟨p, hp, he⟩ | ⟨e, he2, he⟩)
      · exact ⟨ymOfDay p.date, Or.inl ⟨p, hp, rfl⟩, he⟩
      · exact ⟨ymOfDay e.date, Or.inr ⟨e, he2, rfl⟩, he⟩
    · rintro ⟨q, ⟨p, hp, hq⟩ | ⟨e, he2, hq⟩, he⟩
      · exact Or.inl ⟨p, hp, by rw [← hq] at he; exact he⟩
      · exact Or.inr ⟨e, he2, by rw [← hq] at he; exact he⟩
  have hnodup : (after.map (·.name)).Nodup :=
    nodup_map_name_processItems _ _ _
      (nodup_map_name_processItems _ _ _ (by simp))
  have hlen : after.length = (monthsOf payments expensesList).toFinset.card := by
    have h1 : after.length = (after.map (·.name)).length :=
      (List.length_map _ _).symm
    rw [h1, ← List.toFinset_card_of_nodup hnodup, hset]
    have himg : ((monthsOf payments expensesList).map
          (fun p => monthLabel p.1 p.2)).toFinset =
        Finset.image (fun p : Nat × Fin 12 => monthLabel p.1 p.2)
          (monthsOf payments expensesList).toFinset := by
      ext x
      simp
    rw [himg, Finset.card_image_of_injective _ monthLabelPair_injective]
  have htrans : ∀ a b c : MonthlyBucket,
      decide (labelDateCode a.name ≤ labelDateCode b.name) = true →
        decide (labelDateCode b.name ≤ labelDateCode c.name) = true →
          decide (labelDateCode a.name ≤ labelDateCode c.name) = true := by
    intro a b c h1 h2
    simp only [decide_eq_true_eq] at h1 h2 ⊢
    omega
  have htotal : ∀ a b : MonthlyBucket,
      (decide (labelDateCode a.name ≤ labelDateCode b.name) ||
        decide (labelDateCode b.name ≤ labelDateCode a.name)) = true := by
    intro a b
    simp only [Bool.or_eq_true, decide_eq_true_eq]
    omega
  refine ⟨?_, ?_, ?_⟩
  · rw [hunfold, List.length_mergeSort, hlen]
  · rw [hunfold, List.pairwise_map]
    exact (List.sorted_mergeSort htrans htotal after).imp
      (fun h => by simpa using h)
  · intro b hb
    rw [hunfold, List.mem_mergeSort] at hb
    have hbname : b.name ∈ (after.map (·.name)).toFinset :=
      List.mem_toFinset.mpr (List.mem_map_of_mem _ hb)
    rw [hset, List.mem_toFinset] at hbname
    obtain ⟨p, hp, heq⟩ := List.mem_map.mp hbname
    exact ⟨p, hp, heq.symm⟩

end TSO
